import Mathlib

/-!
Verification of the JSON CMS versioned content store against its
natural-language specification.

The development shallowly embeds the relevant source files:

- src/services/validation.ts  (ValidationService, ValidationError)
- src/pages/api/file.ts       (GitHub-backed file API handler)
- the local file API handler draft (getFullPath, readJsonFile,
  writeJsonFile, handler)
- src/pages/api/git/[action].ts (getGitConfig, handleGitError, commit)
- src/services/git.ts         (ensureContentPath)

Stateful handlers are modeled as explicit state passing; every backend
interaction (filesystem call, remote HTTP call) is recorded in an explicit
effect trace so that claims about which backend is touched are statable.
-/

namespace JsonCms

/-! ## Character and string helpers (kept at the level of List Char so that
all definitions evaluate by kernel reduction) -/

/-- The opening curly brace character. -/
def lbrace : Char := Char.ofNat 123

/-- The closing curly brace character. -/
def rbrace : Char := Char.ofNat 125

/-- Characters treated as whitespace by the JSON grammar. -/
def isJsonWs (c : Char) : Bool :=
  c = ' ' || c = '\t' || c = '\n' || c = Char.ofNat 13

/-- Drop leading JSON whitespace. -/
def skipWs : List Char → List Char
  | [] => []
  | c :: cs => if isJsonWs c then skipWs cs else c :: cs

/-- Does the second list start with the first one? -/
def startsWithChars : List Char → List Char → Bool
  | [], _ => true
  | _ :: _, [] => false
  | p :: ps, c :: cs => p = c && startsWithChars ps cs

/-- Does the second string start with the first one? -/
def startsWithString (head s : String) : Bool := startsWithChars head.data s.data

/-! ## JSON values and a model of JavaScript JSON.parse -/

/-- A parsed JSON value. A number is modeled by its integer part together
with an integrality flag; fractional and exponent digits are checked
syntactically by the parser but their value contribution is elided (no claim
exercises numeric schema refinements). -/
inductive Json where
  | null
  | bool (b : Bool)
  | num (intPart : Int) (isInt : Bool)
  | str (s : String)
  | arr (elems : List Json)
  | obj (fields : List (String × Json))
deriving Repr, Inhabited

/-- Is the character a hexadecimal digit? -/
def isHexDigitChar (c : Char) : Bool :=
  c.isDigit || ('a' ≤ c && c ≤ 'f') || ('A' ≤ c && c ≤ 'F')

/-- Numeric value of a hexadecimal digit. -/
def hexVal (c : Char) : Nat :=
  if c.isDigit then c.toNat - 48
  else if 'a' ≤ c && c ≤ 'f' then c.toNat - 87
  else c.toNat - 55

/-- Decode a simple JSON string escape character. -/
def escChar (e : Char) : Option Char :=
  if e = '"' then some '"'
  else if e = '\\' then some '\\'
  else if e = '/' then some '/'
  else if e = 'b' then some (Char.ofNat 8)
  else if e = 'f' then some (Char.ofNat 12)
  else if e = 'n' then some '\n'
  else if e = 'r' then some (Char.ofNat 13)
  else if e = 't' then some '\t'
  else none

/-- Parse the remainder of a JSON string literal after the opening quote,
returning the decoded string and the input after the closing quote. -/
def parseStringRest : List Char → Except String (String × List Char)
  | [] => .error "Unterminated string in JSON"
  | c :: cs =>
    if c = '"' then .ok ("", cs)
    else if c = '\\' then
      match cs with
      | [] => .error "Unterminated string in JSON"
      | e :: cs2 =>
        if e = 'u' then
          match cs2 with
          | h1 :: h2 :: h3 :: h4 :: cs3 =>
            if isHexDigitChar h1 && isHexDigitChar h2 && isHexDigitChar h3 &&
                isHexDigitChar h4 then
              match parseStringRest cs3 with
              | .ok (s, r) =>
                .ok (String.mk (Char.ofNat
                  (((hexVal h1 * 16 + hexVal h2) * 16 + hexVal h3) * 16 + hexVal h4)
                  :: s.data), r)
              | .error m => .error m
            else .error "Bad Unicode escape in JSON"
          | _ => .error "Bad Unicode escape in JSON"
        else
          match escChar e with
          | some d =>
            match parseStringRest cs2 with
            | .ok (s, r) => .ok (String.mk (d :: s.data), r)
            | .error m => .error m
          | none => .error "Bad escaped character in JSON"
    else if c.toNat < 32 then .error "Bad control character in JSON string"
    else
      match parseStringRest cs with
      | .ok (s, r) => .ok (String.mk (c :: s.data), r)
      | .error m => .error m

/-- Split leading decimal digits off a character list. -/
def takeDigits : List Char → List Char × List Char
  | [] => ([], [])
  | c :: cs =>
    if c.isDigit then
      let (ds, r) := takeDigits cs
      (c :: ds, r)
    else ([], c :: cs)

/-- Numeric value of a list of decimal digits. -/
def digitsVal (ds : List Char) : Nat :=
  ds.foldl (fun a c => a * 10 + (c.toNat - 48)) 0

/-- Parse an optional fraction part, returning its digits. -/
def fracPart : List Char → Except String (List Char × List Char)
  | [] => .ok ([], [])
  | c :: r =>
    if c = '.' then
      match takeDigits r with
      | ([], _) => .error "Unterminated fractional number in JSON"
      | (fds, r2) => .ok (fds, r2)
    else .ok ([], c :: r)

/-- Parse an optional exponent part, returning whether one was present. -/
def expPart : List Char → Except String (Bool × List Char)
  | [] => .ok (false, [])
  | c :: r =>
    if c = 'e' || c = 'E' then
      let r2 := match r with
        | s :: r3 => if s = '+' || s = '-' then r3 else s :: r3
        | [] => []
      match takeDigits r2 with
      | ([], _) => .error "Exponent part is missing a number in JSON"
      | (_, r3) => .ok (true, r3)
    else .ok (false, c :: r)

/-- Parse a JSON number token per the JSON grammar: optional minus, integer
part without leading zeros, optional fraction, optional exponent. -/
def parseNumberTok (cs0 : List Char) : Except String (Json × List Char) :=
  let signed : Bool × List Char :=
    match cs0 with
    | c :: r => if c = '-' then (true, r) else (false, cs0)
    | [] => (false, cs0)
  match takeDigits signed.2 with
  | ([], _) => .error "Unexpected token in JSON"
  | (ds, cs2) =>
    if ds.length > 1 && ds.head? = some '0' then
      .error "Unexpected number in JSON"
    else
      match fracPart cs2 with
      | .error m => .error m
      | .ok (fds, cs3) =>
        match expPart cs3 with
        | .error m => .error m
        | .ok (hasExp, cs4) =>
          let n : Int := Int.ofNat (digitsVal ds)
          .ok (.num (if signed.1 then -n else n) (fds.isEmpty && !hasExp), cs4)

/-- Match a literal suffix such as the rue of true, returning the rest. -/
def litRest : List Char → List Char → Option (List Char)
  | [], cs => some cs
  | _ :: _, [] => none
  | p :: ps, c :: cs => if c = p then litRest ps cs else none

/-- Parse the members of a JSON object when at least one member follows,
using the supplied value parser; the loop fuel bounds the member count. -/
def parseMembersAux (pv : List Char → Except String (Json × List Char)) :
    Nat → List Char → Except String (List (String × Json) × List Char)
  | 0, _ => .error "Unexpected end of JSON input"
  | n+1, cs =>
    match cs with
    | [] => .error "Unexpected end of JSON input"
    | c :: cs1 =>
      if c = '"' then
        match parseStringRest cs1 with
        | .error m => .error m
        | .ok (k, cs2) =>
          match skipWs cs2 with
          | [] => .error "Unexpected end of JSON input"
          | c2 :: cs3 =>
            if c2 = ':' then
              match pv (skipWs cs3) with
              | .error m => .error m
              | .ok (v, cs4) =>
                match skipWs cs4 with
                | [] => .error "Unexpected end of JSON input"
                | c3 :: cs5 =>
                  if c3 = ',' then
                    match parseMembersAux pv n (skipWs cs5) with
                    | .error m => .error m
                    | .ok (ms, cs6) => .ok ((k, v) :: ms, cs6)
                  else if c3 = rbrace then .ok ([(k, v)], cs5)
                  else .error "Expected comma or closing brace in JSON object"
            else .error "Expected colon after property name in JSON"
      else .error "Expected property name in JSON object"

/-- Parse the elements of a JSON array when at least one element follows,
using the supplied value parser; the loop fuel bounds the element count. -/
def parseElemsAux (pv : List Char → Except String (Json × List Char)) :
    Nat → List Char → Except String (List Json × List Char)
  | 0, _ => .error "Unexpected end of JSON input"
  | n+1, cs =>
    match pv cs with
    | .error m => .error m
    | .ok (v, cs1) =>
      match skipWs cs1 with
      | [] => .error "Unexpected end of JSON input"
      | c :: cs2 =>
        if c = ',' then
          match parseElemsAux pv n (skipWs cs2) with
          | .error m => .error m
          | .ok (vs, cs3) => .ok (v :: vs, cs3)
        else if c = ']' then .ok ([v], cs2)
        else .error "Expected comma or closing bracket in JSON array"

/-- Parse one JSON value; the fuel bounds nesting depth and is always
adequate when instantiated with the input length plus one, since every
nesting level consumes at least one character. -/
def parseValue : Nat → List Char → Except String (Json × List Char)
  | 0, _ => .error "Unexpected end of JSON input"
  | fuel+1, cs =>
    match cs with
    | [] => .error "Unexpected end of JSON input"
    | c :: cs1 =>
      if c = lbrace then
        match skipWs cs1 with
        | [] => .error "Unexpected end of JSON input"
        | c2 :: cs2 =>
          if c2 = rbrace then .ok (.obj [], cs2)
          else
            match parseMembersAux (fun l => parseValue fuel l)
                ((c2 :: cs2).length + 1) (c2 :: cs2) with
            | .error m => .error m
            | .ok (ms, r) => .ok (.obj ms, r)
      else if c = '[' then
        match skipWs cs1 with
        | [] => .error "Unexpected end of JSON input"
        | c2 :: cs2 =>
          if c2 = ']' then .ok (.arr [], cs2)
          else
            match parseElemsAux (fun l => parseValue fuel l)
                ((c2 :: cs2).length + 1) (c2 :: cs2) with
            | .error m => .error m
            | .ok (vs, r) => .ok (.arr vs, r)
      else if c = '"' then
        match parseStringRest cs1 with
        | .error m => .error m
        | .ok (s, r) => .ok (.str s, r)
      else if c = 't' then
        match litRest ['r', 'u', 'e'] cs1 with
        | some r => .ok (.bool true, r)
        | none => .error "Unexpected token in JSON"
      else if c = 'f' then
        match litRest ['a', 'l', 's', 'e'] cs1 with
        | some r => .ok (.bool false, r)
        | none => .error "Unexpected token in JSON"
      else if c = 'n' then
        match litRest ['u', 'l', 'l'] cs1 with
        | some r => .ok (.null, r)
        | none => .error "Unexpected token in JSON"
      else if c = '-' || c.isDigit then parseNumberTok (c :: cs1)
      else .error "Unexpected token in JSON"

/-- Model of JavaScript JSON.parse: parse one JSON value surrounded by
optional whitespace; anything else is a syntax error carrying a message. -/
def parseJson (s : String) : Except String Json :=
  match parseValue (s.length + 1) (skipWs s.data) with
  | .error m => .error m
  | .ok (v, rest) =>
    match skipWs rest with
    | [] => .ok v
    | _ => .error "Unexpected non-whitespace character after JSON"

/-! ## Validation service (src/services/validation.ts) -/

/-- A zod-style validation issue: a code, a path into the JSON value
(array indices rendered as decimal strings), and a message. -/
structure Issue where
  code : String
  path : List String
  message : String
deriving Repr, DecidableEq

/-- Model of the ValidationError class (validation.ts lines 3-8): a message
together with the list of zod issues. -/
structure ValidationError where
  message : String
  errors : List Issue
deriving Repr, DecidableEq

/-- The zod validators producible by ValidationService.jsonSchemaToZod
(validation.ts lines 68-140). An object shape is encoded as a chain of
objCons cells, one per declared property in source insertion order, ending
in objNil; the Bool marks a required property. Regex pattern refinements of
strings are outside the model (no claim exercises them). -/
inductive ZodType where
  | any
  | str (minLen maxLen : Option Nat)
  | num (intOnly : Bool) (minimum maximum : Option Int)
  | bool
  | arr (item : ZodType) (minItems maxItems : Option Nat)
  | objNil
  | objCons (key : String) (prop : ZodType) (required : Bool) (rest : ZodType)
deriving Repr, Inhabited, DecidableEq

/-- The zod type name of a JSON value, used in invalid type messages. -/
def jsonTypeName : Json → String
  | .null => "null"
  | .bool _ => "boolean"
  | .num _ _ => "number"
  | .str _ => "string"
  | .arr _ => "array"
  | .obj _ => "object"

/-- Property lookup on parsed JSON object fields. JSON.parse keeps the last
of duplicate keys, so the last binding wins. -/
def lookupField : List (String × Json) → String → Option Json
  | [], _ => none
  | (k, v) :: fs, key =>
    match lookupField fs key with
    | some v2 => some v2
    | none => if k = key then some v else none

/-- One run of a compiled zod validator over a JSON value, collecting all
issues rather than stopping at the first (zod parseAsync semantics for the
subset produced by jsonSchemaToZod). An objCons chain checks each declared
property in order; a value that is not an object yields the single expected
object issue at the end of the chain. -/
def zodCheck : ZodType → Json → List Issue
  | .any, _ => []
  | .str minL maxL, v =>
      match v with
      | .str s =>
        (match minL with
         | some m =>
           if s.length < m then
             [⟨"too_small", [],
               "String must contain at least " ++ toString m ++ " character(s)"⟩]
           else []
         | none => []) ++
        (match maxL with
         | some m =>
           if s.length > m then
             [⟨"too_big", [],
               "String must contain at most " ++ toString m ++ " character(s)"⟩]
           else []
         | none => [])
      | _ => [⟨"invalid_type", [], "Expected string, received " ++ jsonTypeName v⟩]
  | .num intOnly mn mx, v =>
      match v with
      | .num n isInt =>
        (if intOnly && !isInt then
           [⟨"invalid_type", [], "Expected integer, received float"⟩]
         else []) ++
        (match mn with
         | some m =>
           if n < m then
             [⟨"too_small", [],
               "Number must be greater than or equal to " ++ toString m⟩]
           else []
         | none => []) ++
        (match mx with
         | some m =>
           if n > m then
             [⟨"too_big", [],
               "Number must be less than or equal to " ++ toString m⟩]
           else []
         | none => [])
      | _ => [⟨"invalid_type", [], "Expected number, received " ++ jsonTypeName v⟩]
  | .bool, v =>
      match v with
      | .bool _ => []
      | _ => [⟨"invalid_type", [], "Expected boolean, received " ++ jsonTypeName v⟩]
  | .arr item mnI mxI, v =>
      match v with
      | .arr es =>
        (match mnI with
         | some m =>
           if es.length < m then
             [⟨"too_small", [],
               "Array must contain at least " ++ toString m ++ " element(s)"⟩]
           else []
         | none => []) ++
        (match mxI with
         | some m =>
           if es.length > m then
             [⟨"too_big", [],
               "Array must contain at most " ++ toString m ++ " element(s)"⟩]
           else []
         | none => []) ++
        (es.enum.map (fun ie =>
          (zodCheck item ie.2).map
            (fun iss => { iss with path := toString ie.1 :: iss.path }))).flatten
      | _ => [⟨"invalid_type", [], "Expected array, received " ++ jsonTypeName v⟩]
  | .objNil, v =>
      match v with
      | .obj _ => []
      | _ => [⟨"invalid_type", [], "Expected object, received " ++ jsonTypeName v⟩]
  | .objCons k sub req rest, v =>
      match v with
      | .obj fields =>
        (match lookupField fields k with
         | some pv =>
           (zodCheck sub pv).map (fun iss => { iss with path := k :: iss.path })
         | none =>
           if req then [⟨"invalid_type", [k], "Required"⟩] else []) ++
        zodCheck rest (.obj fields)
      | _ => zodCheck rest v

/-- Field access on a JSON schema document (undefined on non-objects). -/
def jGet : Json → String → Option Json
  | .obj fields, k => lookupField fields k
  | _, _ => none

/-- A numeric schema field read as a Nat (length and item count bounds).
Non-numeric refinement values, which the untyped source would pass straight
into zod, are outside the model and read as absent. -/
def jGetNat (j : Json) (k : String) : Option Nat :=
  match jGet j k with
  | some (.num n _) => some n.toNat
  | _ => none

/-- A numeric schema field read as an Int (minimum and maximum bounds). -/
def jGetInt (j : Json) (k : String) : Option Int :=
  match jGet j k with
  | some (.num n _) => some n
  | _ => none

/-- Does the JSON array of required property names contain the given key
(strict equality, as with Array.includes)? -/
def requiredContains (req : List Json) (key : String) : Bool :=
  req.any (fun r =>
    match r with
    | .str s => s = key
    | _ => false)

/-- Model of ValidationService.jsonSchemaToZod (validation.ts lines 68-140):
a falsy or non-object schema compiles to an always-accepting validator; the
type field selects the compiled validator, any unknown or absent type
compiling to always-accepting; object properties are compiled in insertion
order with required names taken from the required array, and objects are
open (passthrough). The fuel bounds schema depth; jsonSchemaToZod supplies
an adequate bound. -/
def jsonSchemaToZodF : Nat → Json → ZodType
  | 0, _ => .any
  | fuel+1, schema =>
    match schema with
    | .obj _ =>
      match jGet schema "type" with
      | some (.str "string") => .str (jGetNat schema "minLength") (jGetNat schema "maxLength")
      | some (.str "number") => .num false (jGetInt schema "minimum") (jGetInt schema "maximum")
      | some (.str "integer") => .num true (jGetInt schema "minimum") (jGetInt schema "maximum")
      | some (.str "boolean") => .bool
      | some (.str "array") =>
        let item := match jGet schema "items" with
          | some it => jsonSchemaToZodF fuel it
          | none => .any
        .arr item (jGetNat schema "minItems") (jGetNat schema "maxItems")
      | some (.str "object") =>
        let props := match jGet schema "properties" with
          | some (.obj fs) => fs
          | _ => []
        let req := match jGet schema "required" with
          | some (.arr rs) => rs
          | _ => []
        props.foldr (fun kv rest =>
          .objCons kv.1 (jsonSchemaToZodF fuel kv.2) (requiredContains req kv.1) rest)
          .objNil
      | _ => .any
    | _ => .any

/-- Model of ValidationService.loadSchemaFromJson (validation.ts lines
63-66): parse the schema text and compile it. The length of the text bounds
the depth of the parsed document, so the compile fuel never runs out. -/
def loadSchemaFromJson (schemaJson : String) : Except String ZodType :=
  match parseJson schemaJson with
  | .error m => .error m
  | .ok j => .ok (jsonSchemaToZodF (schemaJson.length + 1) j)

/-- Schema registry lookup, modeling the private schemas map of
ValidationService (first match; map keys are unique). -/
def lookupSchema : List (String × ZodType) → String → Option ZodType
  | [], _ => none
  | (k, t) :: rest, p => if k = p then some t else lookupSchema rest p

/-- Model of ValidationService.validateJson (validation.ts lines 21-49):
parse the text first, a syntax error failing with the Invalid JSON error
carrying the parser message at an empty path; with no registered schema any
syntactically valid JSON is accepted; otherwise run the schema, any issues
failing with the Schema validation failed error carrying them all. -/
def validateJson (schemas : List (String × ZodType)) (path content : String) :
    Except ValidationError Unit :=
  match parseJson content with
  | .error m => .error ⟨"Invalid JSON", [⟨"custom", [], m⟩]⟩
  | .ok v =>
    match lookupSchema schemas path with
    | none => .ok ()
    | some t =>
      match zodCheck t v with
      | [] => .ok ()
      | issues => .error ⟨"Schema validation failed", issues⟩

/-- The schema text of the specification example: an object with required
title of type string and minLength 1. -/
def titleSchemaText : String :=
  "\x7b\"type\":\"object\",\"required\":[\"title\"],\"properties\":\x7b\"title\":\x7b\"type\":\"string\",\"minLength\":1\x7d\x7d\x7d"

/-- The compiled title schema. -/
def titleSchema : ZodType :=
  match loadSchemaFromJson titleSchemaText with
  | .ok t => t
  | .error _ => .any

/-! ## Path resolution (Node path.join as used by the handlers) -/

/-- Split a character list into slash-separated segments. -/
def splitOnSlash : List Char → List Char → List String
  | [], cur => [String.mk cur.reverse]
  | c :: cs, cur =>
    if c = '/' then String.mk cur.reverse :: splitOnSlash cs []
    else splitOnSlash cs (c :: cur)

/-- Resolve dot-dot segments against a stack of already-accepted segments
(Node normalization for an absolute path: dot-dot above the root is
dropped). -/
def resolveSegs : List String → List String → List String
  | [], acc => acc.reverse
  | s :: rest, acc =>
    if s = ".." then resolveSegs rest (acc.drop 1)
    else resolveSegs rest (s :: acc)

/-- Join path segments with slashes. -/
def joinSegs : List String → String
  | [] => ""
  | [s] => s
  | s :: rest => s ++ "/" ++ joinSegs rest

/-- Model of Node path.join for an absolute first argument (the only use in
the handlers): concatenate, then normalize away empty and dot segments and
resolve dot-dot segments. Node join does not treat an absolute second
argument specially. -/
def pathJoin (a b : String) : String :=
  let segs := (splitOnSlash (a ++ "/" ++ b).data []).filter
    (fun seg => !(seg = "") && !(seg = "."))
  "/" ++ joinSegs (resolveSegs segs [])

/-- Model of Node path.dirname for an absolute path. -/
def pathDirname (s : String) : String :=
  let segs := (splitOnSlash s.data []).filter (fun seg => !(seg = "") && !(seg = "."))
  "/" ++ joinSegs segs.dropLast

/-- process.cwd() modeled as a fixed absolute directory. -/
def cwd : String := "/app"

/-- path.join(process.cwd(), "content"): the content root. -/
def contentDir : String := pathJoin cwd "content"

/-- getFullPath of the local file API handler: joins the request path under
the content root, with no containment check. -/
def getFullPath (relativePath : String) : String := pathJoin contentDir relativePath

/-- Spec-side predicate (specification sections 3 and 4.2): the resolved
absolute path stays within the content root. -/
def isWithinRoot (full : String) : Bool :=
  full = contentDir || startsWithString (contentDir ++ "/") full

/-! ## Backend effects and the local file API handler (the draft with
getFullPath, readJsonFile, writeJsonFile and the GET and POST branches) -/

/-- One observable backend interaction of a handler run. -/
inductive Effect where
  | fsExists (path : String)
  | fsRead (path : String)
  | mkdir (path : String)
  | fsWrite (path : String)
  | remoteGet (path : String)
  | remotePut (path : String)
deriving Repr, DecidableEq

/-- Is the effect a local filesystem interaction? -/
def Effect.isLocalFs : Effect → Bool
  | .fsExists _ => true
  | .fsRead _ => true
  | .mkdir _ => true
  | .fsWrite _ => true
  | _ => false

/-- Is the effect a local file content write? -/
def Effect.isFileWrite : Effect → Bool
  | .fsWrite _ => true
  | _ => false

/-- Is the effect a local filesystem mutation (directory creation or file
write)? -/
def Effect.isLocalMutation : Effect → Bool
  | .mkdir _ => true
  | .fsWrite _ => true
  | _ => false

/-- Is the effect a remote call? -/
def Effect.isRemote : Effect → Bool
  | .remoteGet _ => true
  | .remotePut _ => true
  | _ => false

/-- Local filesystem state: files by absolute path, and existing
directories. -/
structure FState where
  files : List (String × String)
  dirs : List String
deriving Repr, DecidableEq

/-- File lookup by absolute path (the most recent write wins). -/
def findFile : List (String × String) → String → Option String
  | [], _ => none
  | (k, v) :: rest, p => if k = p then some v else findFile rest p

/-- HTTP results of the file API handlers, by response shape. -/
inductive ApiResult where
  | success (content : String)
  | invalidRequest
  | validationFailure (message : String) (details : List Issue)
  | notFound
  | serverError (details : String)
deriving Repr, DecidableEq

/-- readJsonFile of the local handler draft, given the content read from
disk: re-parse it, a syntax error failing with the Invalid JSON file
validation error carrying the parser message at an empty path. -/
def readJsonFile (content : String) : Except ValidationError String :=
  match parseJson content with
  | .ok _ => .ok content
  | .error m => .error ⟨"Invalid JSON file", [⟨"invalid_json", [], m⟩]⟩

/-- State part of ensureContentDirectory: create the content root if it does
not exist. -/
def ensureDirState (st : FState) : FState :=
  if st.dirs.contains contentDir then st
  else { st with dirs := contentDir :: st.dirs }

/-- Effect trace of ensureContentDirectory: an existence check, plus the
directory creation when the root is missing. -/
def ensureDirEffects (st : FState) : List Effect :=
  if st.dirs.contains contentDir then [.fsExists contentDir]
  else [.fsExists contentDir, .mkdir contentDir]

/-- GET branch of the local file API handler: zod-check the query, resolve
the full path, 404 when the file does not exist, otherwise read and
re-parse it. -/
def localHandlerGet (st : FState) (p : String) : ApiResult × List Effect :=
  if p.length < 1 then (.invalidRequest, [])
  else
    match findFile st.files (getFullPath p) with
    | none => (.notFound, [.fsExists (getFullPath p)])
    | some content =>
      match readJsonFile content with
      | .ok c =>
        (.success c, [.fsExists (getFullPath p), .fsRead (getFullPath p)])
      | .error e =>
        (.validationFailure e.message e.errors,
          [.fsExists (getFullPath p), .fsRead (getFullPath p)])

/-- POST branch of the local file API handler with writeJsonFile inlined:
zod-check the body, resolve the full path, ensure the content root exists
(before validation), validate path and content, and only on success create
the parent directory and write the file. The validation key is the resolved
full path. -/
def localHandlerPost (schemas : List (String × ZodType)) (st : FState) (p t : String) :
    ApiResult × FState × List Effect :=
  if p.length < 1 then (.invalidRequest, st, [])
  else
    match validateJson schemas (getFullPath p) t with
    | .error e =>
      (.validationFailure e.message e.errors, ensureDirState st, ensureDirEffects st)
    | .ok _ =>
      (.success t,
        ⟨(getFullPath p, t) :: (ensureDirState st).files,
          pathDirname (getFullPath p) :: (ensureDirState st).dirs⟩,
        ensureDirEffects st ++
          [.mkdir (pathDirname (getFullPath p)), .fsWrite (getFullPath p)])

/-! ## GitHub-backed file API handler (src/pages/api/file.ts) -/

/-- GitHub configuration drawn from the environment; none means unset, and
an empty string is falsy in the source guard. -/
structure GHConfig where
  token : Option String
  repo : Option String
  owner : Option String
  branch : String
deriving Repr, DecidableEq

/-- JavaScript truthiness of an optional string. -/
def truthy : Option String → Bool
  | some s => !(s = "")
  | none => false

/-- Are token, repo and owner all configured? -/
def ghConfigured (c : GHConfig) : Bool :=
  truthy c.token && truthy c.repo && truthy c.owner

/-- The remote GitHub contents API as observed by the handler: either
reachable, serving the files listed, or failing every request at the HTTP
level with a status text. -/
structure RemoteEnv where
  ok : Bool
  statusText : String
  files : List (String × String)
deriving Repr, DecidableEq

/-- readFromGitHub (file.ts lines 23-51): missing configuration throws
before any request; otherwise one content GET, a 404 mapping to a File not
found error and any other failure to a GitHub API error with the status
text. -/
def readFromGitHub (c : GHConfig) (env : RemoteEnv) (p : String) :
    Except String String × List Effect :=
  if !(ghConfigured c) then (.error "GitHub configuration is missing", [])
  else if env.ok then
    match findFile env.files p with
    | some content => (.ok content, [.remoteGet p])
    | none => (.error "File not found", [.remoteGet p])
  else (.error ("GitHub API error: " ++ env.statusText), [.remoteGet p])

/-- writeToGitHub (file.ts lines 53-99): missing configuration throws before
any request; otherwise a GET for the current blob sha (a failed read only
means no sha is sent) followed by the content PUT, whose failure throws a
GitHub API error with the status text. -/
def writeToGitHub (c : GHConfig) (env : RemoteEnv) (p t : String) :
    Except String RemoteEnv × List Effect :=
  if !(ghConfigured c) then (.error "GitHub configuration is missing", [])
  else if env.ok then
    (.ok { env with files := (p, t) :: env.files }, [.remoteGet p, .remotePut p])
  else (.error ("GitHub API error: " ++ env.statusText), [.remoteGet p, .remotePut p])

/-- GET branch of the GitHub-backed file API handler (file.ts lines
106-114): read only from the remote, then re-parse; any thrown error lands
in the catch-all and is reported as a 500 Internal server error carrying the
message as details. -/
def fileHandlerGet (c : GHConfig) (env : RemoteEnv) (p : String) :
    ApiResult × List Effect :=
  if p.length < 1 then (.invalidRequest, [])
  else
    match readFromGitHub c env p with
    | (.ok content, effs) =>
      match parseJson content with
      | .ok _ => (.success content, effs)
      | .error m => (.serverError m, effs)
    | (.error m, effs) => (.serverError m, effs)

/-- POST branch of the GitHub-backed file API handler (file.ts lines
116-124): validate first (keyed by the request path), then write only to the
remote; a thrown remote error lands in the catch-all as a 500. -/
def fileHandlerPost (c : GHConfig) (env : RemoteEnv) (schemas : List (String × ZodType))
    (p t : String) : ApiResult × RemoteEnv × List Effect :=
  if p.length < 1 then (.invalidRequest, env, [])
  else
    match validateJson schemas p t with
    | .error e => (.validationFailure e.message e.errors, env, [])
    | .ok _ =>
      match writeToGitHub c env p t with
      | (.ok env2, effs) => (.success t, env2, effs)
      | (.error m, effs) => (.serverError m, env, effs)

/-! ## Git action API (src/pages/api/git/[action].ts) -/

/-- A thrown JavaScript error as inspected by handleGitError: whether it is
an Error instance, its message, its code property when present (isomorphic
git errors carry one; a plain Error or a ZodError does not), and the
statusCode of its data when present. -/
structure JsError where
  isError : Bool
  message : String
  code : Option String
  statusCode : Option Nat
deriving Repr, DecidableEq

/-- The JSON body of a failed git API response. -/
structure GitErrorBody where
  message : String
  code : String
deriving Repr, DecidableEq

/-- Model of handleGitError (git action handler lines 73-117): missing name
or email configuration maps to CONFIG_ERROR, an HttpError with statusCode
401 to AUTH_ERROR, a checkout conflict to CONFLICT_ERROR; any other Error
keeps its message and its own code when that code is truthy, falling back to
GIT_ERROR; a non-Error value maps to UNKNOWN_ERROR with a fixed message. -/
def handleGitError (e : JsError) : GitErrorBody :=
  if e.isError then
    if e.code = some "MissingNameError" then
      ⟨"Git username not configured. Please run: git config --global user.name Your Name",
       "CONFIG_ERROR"⟩
    else if e.code = some "MissingEmailError" then
      ⟨"Git email not configured. Please run: git config --global user.email your@email.com",
       "CONFIG_ERROR"⟩
    else if e.code = some "HttpError" ∧ e.statusCode = some 401 then
      ⟨"Git authentication failed. Please ensure you have the correct credentials configured.",
       "AUTH_ERROR"⟩
    else if e.code = some "CheckoutConflictError" then
      ⟨"Git checkout conflict. Please resolve conflicts and try again.",
       "CONFLICT_ERROR"⟩
    else
      ⟨e.message,
        match e.code with
        | some c => if c = "" then "GIT_ERROR" else c
        | none => "GIT_ERROR"⟩
  else ⟨"Unknown error occurred", "UNKNOWN_ERROR"⟩

/-- The git config values visible to getGitConfig; none means unset, and an
empty string is falsy in the source fallbacks. -/
structure GitConfigEnv where
  localName : Option String
  localEmail : Option String
  globalName : Option String
  globalEmail : Option String
deriving Repr, DecidableEq

/-- First truthy of two optional config values. -/
def pickCfg (a b : Option String) : Option String := if truthy a then a else b

/-- A truthy optional value or the given default. -/
def orTruthy (a : Option String) (d : String) : String :=
  match a with
  | some s => if s = "" then d else s
  | none => d

/-- Model of getGitConfig (git action handler lines 30-70): local config,
then global config, then the fixed fallback identity. -/
def getGitConfig (e : GitConfigEnv) : String × String :=
  (orTruthy (pickCfg e.localName e.globalName) "JSON CMS",
   orTruthy (pickCfg e.localEmail e.globalEmail) "json-cms@example.com")

/-- Local repository state: whether git add has staged the working tree, and
the commit log as message and author pairs, newest first. -/
structure RepoState where
  stagedAll : Bool
  commits : List (String × String × String)
deriving Repr, DecidableEq

/-- Responses of the git action handler commit branch. -/
inductive GitActionResult where
  | commitOk (commitId : Nat)
  | gitFailure (status : Nat) (body : GitErrorBody)
deriving Repr, DecidableEq

/-- The ZodError thrown by CommitSchema.parse on an empty message, as seen
by handleGitError: an Error instance carrying no code property. Its message
is modeled by the min-length issue text; only the absence of a code matters
to the normalization. -/
def zodEmptyMessageError : JsError :=
  ⟨true, "String must contain at least 1 character(s)", none, none⟩

/-- The commit branch of the git action handler (lines 129-145): the body
schema requires a message of length at least one; on success git add stages
everything and git commit appends to the log with the resolved author (the
commit identifier is modeled by the resulting log length); a thrown ZodError
lands in the catch-all as a 500 whose body comes from handleGitError. -/
def commitAction (env : GitConfigEnv) (st : RepoState) (message : String) :
    GitActionResult × RepoState :=
  if 1 ≤ message.length then
    let author := getGitConfig env
    let st1 : RepoState := { st with stagedAll := true }
    let st2 : RepoState := { st1 with commits := (message, author.1, author.2) :: st1.commits }
    (.commitOk st2.commits.length, st2)
  else
    (.gitFailure 500 (handleGitError zodEmptyMessageError), st)

/-! ## Client path normalization (src/services/git.ts) -/

/-- Model of ensureContentPath (git.ts lines 76-81): first replace one
leading content/ segment, then strip leading slashes. -/
def ensureContentPath (filePath : String) : String :=
  let step1 :=
    if startsWithString "content/" filePath then String.mk (filePath.data.drop 8)
    else filePath
  String.mk (step1.data.dropWhile (fun c => c = '/'))

/-! ## Concrete fixtures used by the theorems below -/

/-- A filesystem holding a JSON file outside the content root, with the
content root present. -/
def c1State : FState := ⟨[("/app/secret.json", "\x7b\"k\":1\x7d")], ["/app/content"]⟩

/-- A fully configured GitHub environment. -/
def ghCfg : GHConfig := ⟨some "tok", some "repo", some "owner", "main"⟩

/-- A configured but failing remote: every request fails at the HTTP level. -/
def deadRemote : RemoteEnv := ⟨false, "Service Unavailable", []⟩

/-- A reachable remote holding one JSON file. -/
def liveRemote : RemoteEnv := ⟨true, "OK", [("a.json", "\x7b\x7d")]⟩

/-- A filesystem with no files and no content root. -/
def emptyFS : FState := ⟨[], []⟩

/-- A filesystem with the content root present and one file of invalid
JSON stored under it. -/
def badStoredFS : FState := ⟨[("/app/content/bad.json", "\x7b")], ["/app/content"]⟩

/-- A filesystem with the content root present and no files. -/
def rootOnlyFS : FState := ⟨[], ["/app/content"]⟩

/-- An environment with no git identity configured anywhere. -/
def noIdCfg : GitConfigEnv := ⟨none, none, none, none⟩

/-- An empty repository state. -/
def emptyRepo : RepoState := ⟨false, []⟩

/-- A repository state with one prior commit. -/
def busyRepo : RepoState := ⟨true, [("init", "JSON CMS", "json-cms@example.com")]⟩

/-! ## Helper lemmas -/

/-- A successful validation implies the text parses as JSON. -/
theorem validateJson_ok_parse (schemas : List (String × ZodType)) (p t : String)
    (h : validateJson schemas p t = .ok ()) : ∃ v, parseJson t = .ok v := by
  unfold validateJson at h
  cases hp : parseJson t with
  | ok v => exact ⟨v, rfl⟩
  | error m => rw [hp] at h; exact absurd h (by simp)

/-- A parse failure determines the validation outcome regardless of any
registered schema. -/
theorem validateJson_parse_error (schemas : List (String × ZodType)) (p t m : String)
    (h : parseJson t = .error m) :
    validateJson schemas p t = .error ⟨"Invalid JSON", [⟨"custom", [], m⟩]⟩ := by
  unfold validateJson
  rw [h]

/-- File lookup finds the most recent write. -/
theorem findFile_head (l : List (String × String)) (k v : String) :
    findFile ((k, v) :: l) k = some v := by
  simp [findFile]

/-- Ensuring the content root does not change the stored files. -/
theorem ensureDirState_files (st : FState) : (ensureDirState st).files = st.files := by
  unfold ensureDirState
  split <;> rfl

/-- The effects of ensuring the content root are never remote and never file
content writes. -/
theorem ensureDirEffects_local (st : FState) :
    ((ensureDirEffects st).all (fun e => !(e.isRemote)) = true) ∧
    ((ensureDirEffects st).all (fun e => !(e.isFileWrite)) = true) := by
  unfold ensureDirEffects
  constructor <;> split <;> decide

/-- The effects of a remote read are at most one remote GET. -/
theorem readFromGitHub_effects (c : GHConfig) (env : RemoteEnv) (p : String) :
    (readFromGitHub c env p).2 = [] ∨ (readFromGitHub c env p).2 = [.remoteGet p] := by
  unfold readFromGitHub
  split
  · exact Or.inl rfl
  · split
    · split
      · exact Or.inr rfl
      · exact Or.inr rfl
    · exact Or.inr rfl

/-- For a non-empty path, the GET branch of the GitHub-backed handler has
exactly the effects of its remote read. -/
theorem fileHandlerGet_effects (c : GHConfig) (env : RemoteEnv) (p : String)
    (hp : ¬ (p.length < 1)) :
    (fileHandlerGet c env p).2 = (readFromGitHub c env p).2 := by
  unfold fileHandlerGet
  rw [if_neg hp]
  rcases h2 : readFromGitHub c env p with ⟨res, effs⟩
  cases res with
  | ok content =>
    cases hj : parseJson content with
    | ok v => simp [hj]
    | error m => simp [hj]
  | error m => rfl

/-- The GitHub-backed read handler never touches the local filesystem. -/
theorem fileHandlerGet_no_local (c : GHConfig) (env : RemoteEnv) (p : String) :
    ((fileHandlerGet c env p).2.all (fun e => !(e.isLocalFs)) = true) := by
  by_cases hp : p.length < 1
  · unfold fileHandlerGet
    rw [if_pos hp]
    rfl
  · rw [fileHandlerGet_effects c env p hp]
    rcases readFromGitHub_effects c env p with h | h <;> rw [h] <;> rfl

/-- The local write handler never makes a remote call. -/
theorem localHandlerPost_no_remote (schemas : List (String × ZodType)) (st : FState)
    (p t : String) :
    ((localHandlerPost schemas st p t).2.2.all (fun e => !(e.isRemote)) = true) := by
  unfold localHandlerPost
  split
  · rfl
  · split
    · exact (ensureDirEffects_local st).1
    · rw [List.all_append, (ensureDirEffects_local st).1]
      rfl

/-- The local read handler never makes a remote call. -/
theorem localHandlerGet_no_remote (st : FState) (p : String) :
    ((localHandlerGet st p).2.all (fun e => !(e.isRemote)) = true) := by
  unfold localHandlerGet
  split
  · rfl
  · split
    · rfl
    · split
      · rfl
      · rfl

/-! ## Claim theorems -/

/-- C1 (code bug): the specification requires a path that escapes the
content root to fail with AccessDenied before any filesystem call, but
getFullPath joins the request path under the root with no containment
check: a traversal request resolves outside the root, the filesystem is
called on the escaped path, its content is served, and the POST branch
likewise writes outside the root. -/
theorem c1_traversal_reaches_filesystem :
    getFullPath "../../etc/passwd" = "/etc/passwd" ∧
    isWithinRoot (getFullPath "../../etc/passwd") = false ∧
    isWithinRoot (getFullPath "../secret.json") = false ∧
    localHandlerGet c1State "../secret.json" =
      (.success "\x7b\"k\":1\x7d",
        [.fsExists "/app/secret.json", .fsRead "/app/secret.json"]) ∧
    isWithinRoot (getFullPath "../evil.json") = false ∧
    localHandlerPost [] c1State "../evil.json" "\x7b\"a\":1\x7d" =
      (.success "\x7b\"a\":1\x7d",
        ⟨[("/app/evil.json", "\x7b\"a\":1\x7d"), ("/app/secret.json", "\x7b\"k\":1\x7d")],
          ["/app", "/app/content"]⟩,
        [.fsExists "/app/content", .mkdir "/app", .fsWrite "/app/evil.json"]) := by
  refine ⟨rfl, rfl, rfl, rfl, rfl, rfl⟩

/-- C2 counterexample: with the remote configured but failing, a write of
valid JSON through the GitHub-backed handler is reported as a 500 server
error, not success: the remote write failure is raised to the caller, and
the handler performs no local filesystem write at all. -/
theorem c2_remote_failure_not_swallowed :
    fileHandlerPost ghCfg deadRemote [] "a.json" "\x7b\x7d" =
      (.serverError "GitHub API error: Service Unavailable", deadRemote,
        [.remoteGet "a.json", .remotePut "a.json"]) ∧
    (fileHandlerPost ghCfg deadRemote [] "a.json" "\x7b\x7d").1 ≠ .success "\x7b\x7d" ∧
    ((fileHandlerPost ghCfg deadRemote [] "a.json" "\x7b\x7d").2.2.all
      (fun e => !(e.isLocalFs)) = true) := by
  refine ⟨rfl, by decide, rfl⟩

/-- C3 counterexample: the GitHub-backed read handler serves a read entirely
from the remote: its only backend interaction is a remote GET, with no local
attempt first, refuting the local-first read order. -/
theorem c3_remote_only_read :
    fileHandlerGet ghCfg liveRemote "a.json" = (.success "\x7b\x7d", [.remoteGet "a.json"]) ∧
    ((fileHandlerGet ghCfg liveRemote "a.json").2.all (fun e => !(e.isLocalFs)) = true) := by
  refine ⟨rfl, rfl⟩

/-- C4 counterexample: writing malformed JSON does fail with the Invalid
JSON error and writes no file, but the POST handler has already ensured the
content root before validation: with the root missing, a directory-creating
filesystem write occurs even though validation fails. -/
theorem c4_invalid_json_write_creates_root :
    localHandlerPost [] emptyFS "a.json" "\x7b" =
      (.validationFailure "Invalid JSON" [⟨"custom", [], "Unexpected end of JSON input"⟩],
        ⟨[], ["/app/content"]⟩,
        [.fsExists "/app/content", .mkdir "/app/content"]) ∧
    (Effect.mkdir "/app/content") ∈ (localHandlerPost [] emptyFS "a.json" "\x7b").2.2 ∧
    (Effect.mkdir "/app/content").isLocalMutation = true := by
  refine ⟨rfl, by decide, rfl⟩

/-- C7 counterexample: a path carrying both a leading slash and the root
segment keeps the root segment, normalizing to content/foo.json rather than
foo.json. -/
theorem c7_slash_root_kept :
    ensureContentPath "/content/foo.json" = "content/foo.json" ∧
    ¬ ensureContentPath "/content/foo.json" = "foo.json" := by
  refine ⟨rfl, by decide⟩

/-- C7 amended: normalization strips one leading content segment and then
leading slashes, in that order: content/foo.json, /foo.json and foo.json
all normalize to foo.json, while /content/foo.json normalizes to
content/foo.json because the segment strip runs before the slash strip. -/
theorem c7_normalization_order :
    ensureContentPath "content/foo.json" = "foo.json" ∧
    ensureContentPath "/foo.json" = "foo.json" ∧
    ensureContentPath "foo.json" = "foo.json" ∧
    ensureContentPath "/content/foo.json" = "content/foo.json" := by
  refine ⟨rfl, rfl, rfl, rfl⟩

/-- C8 counterexample: an empty commit message is rejected before staging,
but the failure surfaces through the catch-all as a generic GIT_ERROR body,
not as an EmptyMessage kind. -/
theorem c8_empty_message_generic_error :
    commitAction noIdCfg emptyRepo "" =
      (.gitFailure 500 ⟨"String must contain at least 1 character(s)", "GIT_ERROR"⟩,
        emptyRepo) ∧
    (handleGitError zodEmptyMessageError).code ≠ "EMPTY_MESSAGE" ∧
    (handleGitError zodEmptyMessageError).code ≠ "EmptyMessage" := by
  refine ⟨rfl, by decide, by decide⟩

/-- C9 counterexample: an Error carrying its own code is not normalized to
the generic git error kind: the code passes through unchanged. -/
theorem c9_code_passthrough :
    handleGitError ⟨true, "boom", some "NotFoundError", none⟩ = ⟨"boom", "NotFoundError"⟩ ∧
    (handleGitError ⟨true, "boom", some "NotFoundError", none⟩).code ≠ "GIT_ERROR" := by
  refine ⟨rfl, by decide⟩

/-- C2 amended: the write path uses a single backend per draft: in the
GitHub-backed handler a remote write failure after successful validation is
raised to the caller as a 500 carrying the GitHub API error (no local write
occurs at all, so success is never reported on a failed remote write); in
the local handler draft a write never makes any remote call. -/
theorem c2_single_backend_write (c : GHConfig) (env : RemoteEnv)
    (schemas : List (String × ZodType)) (st : FState) (p t : String)
    (hp : 1 ≤ p.length) (hc : ghConfigured c = true) (hdead : env.ok = false)
    (hv : validateJson schemas p t = .ok ()) :
    fileHandlerPost c env schemas p t =
      (.serverError ("GitHub API error: " ++ env.statusText), env,
        [.remoteGet p, .remotePut p]) ∧
    ((fileHandlerPost c env schemas p t).2.2.all (fun e => !(e.isLocalFs)) = true) ∧
    ((localHandlerPost schemas st p t).2.2.all (fun e => !(e.isRemote)) = true) := by
  have hlt : ¬ (p.length < 1) := by omega
  have h1 : fileHandlerPost c env schemas p t =
      (.serverError ("GitHub API error: " ++ env.statusText), env,
        [.remoteGet p, .remotePut p]) := by
    unfold fileHandlerPost
    rw [if_neg hlt, hv]
    unfold writeToGitHub
    rw [hc, hdead]
    rfl
  exact ⟨h1, by rw [h1]; rfl, localHandlerPost_no_remote schemas st p t⟩

/-- C2 witness at concrete inputs. -/
theorem c2_single_backend_write_witness :
    (fileHandlerPost ghCfg deadRemote [] "a.json" "\x7b\x7d").1 =
      .serverError ("GitHub API error: " ++ deadRemote.statusText) := by
  have h := c2_single_backend_write ghCfg deadRemote [] rootOnlyFS "a.json" "\x7b\x7d"
    (by decide) rfl rfl rfl
  rw [h.1]

/-- C3 amended: each draft reads a single backend: the local handler returns
NotFound for a missing file after only a local existence check, with no
remote attempt, and the GitHub-backed handler reads only the remote with no
local attempt. -/
theorem c3_single_backend_read (st : FState) (c : GHConfig) (env : RemoteEnv) (p : String)
    (hp : 1 ≤ p.length) (hmiss : findFile st.files (getFullPath p) = none) :
    localHandlerGet st p = (.notFound, [.fsExists (getFullPath p)]) ∧
    ((localHandlerGet st p).2.all (fun e => !(e.isRemote)) = true) ∧
    ((fileHandlerGet c env p).2.all (fun e => !(e.isLocalFs)) = true) := by
  have hlt : ¬ (p.length < 1) := by omega
  have h1 : localHandlerGet st p = (.notFound, [.fsExists (getFullPath p)]) := by
    unfold localHandlerGet
    rw [if_neg hlt, hmiss]
  exact ⟨h1, localHandlerGet_no_remote st p, fileHandlerGet_no_local c env p⟩

/-- C3 witness at concrete inputs. -/
theorem c3_single_backend_read_witness :
    localHandlerGet rootOnlyFS "missing.json" =
      (.notFound, [.fsExists (getFullPath "missing.json")]) :=
  (c3_single_backend_read rootOnlyFS ghCfg liveRemote "missing.json" (by decide) rfl).1

/-- C4 amended: for every syntactically invalid text the write fails with
the Invalid JSON error carrying the parser message at an empty path; no file
content is written, the stored files are unchanged, and no remote call
occurs (the GitHub-backed handler validates before any remote call and so
makes none); the local handler does however ensure the content root
directory before validation, so that directory can be created even on a
failed validation. -/
theorem c4_invalid_json_no_backend_data (schemas : List (String × ZodType)) (st : FState)
    (c : GHConfig) (env : RemoteEnv) (p t m : String)
    (hp : 1 ≤ p.length) (hbad : parseJson t = .error m) :
    (localHandlerPost schemas st p t).1 =
      .validationFailure "Invalid JSON" [⟨"custom", [], m⟩] ∧
    (localHandlerPost schemas st p t).2.1.files = st.files ∧
    ((localHandlerPost schemas st p t).2.2.all (fun e => !(e.isFileWrite)) = true) ∧
    ((localHandlerPost schemas st p t).2.2.all (fun e => !(e.isRemote)) = true) ∧
    fileHandlerPost c env schemas p t =
      (.validationFailure "Invalid JSON" [⟨"custom", [], m⟩], env, []) := by
  have hlt : ¬ (p.length < 1) := by omega
  have hv1 := validateJson_parse_error schemas (getFullPath p) t m hbad
  have hv2 := validateJson_parse_error schemas p t m hbad
  have h1 : localHandlerPost schemas st p t =
      (.validationFailure "Invalid JSON" [⟨"custom", [], m⟩],
        ensureDirState st, ensureDirEffects st) := by
    unfold localHandlerPost
    rw [if_neg hlt, hv1]
  refine ⟨by rw [h1], ?_, ?_, ?_, ?_⟩
  · rw [h1]
    exact ensureDirState_files st
  · rw [h1]
    exact (ensureDirEffects_local st).2
  · rw [h1]
    exact (ensureDirEffects_local st).1
  · unfold fileHandlerPost
    rw [if_neg hlt, hv2]

/-- C4 witness at concrete inputs. -/
theorem c4_invalid_json_no_backend_data_witness :
    (localHandlerPost [] rootOnlyFS "a.json" "\x7b").1 =
      .validationFailure "Invalid JSON" [⟨"custom", [], "Unexpected end of JSON input"⟩] :=
  (c4_invalid_json_no_backend_data [] rootOnlyFS ghCfg deadRemote "a.json" "\x7b"
    "Unexpected end of JSON input" (by decide) rfl).1

/-- C5: with the compiled title schema bound to any path, validating an
empty object fails with the schema violation error whose single issue names
title in its path (the missing required property); a one-character title
passes, and an unknown extra property is also accepted since compiled
objects are open. -/
theorem c5_title_schema_validation (p : String) :
    validateJson [(p, titleSchema)] p "\x7b\x7d" =
      .error ⟨"Schema validation failed", [⟨"invalid_type", ["title"], "Required"⟩]⟩ ∧
    ((⟨"invalid_type", ["title"], "Required"⟩ : Issue).path.contains "title" = true) ∧
    validateJson [(p, titleSchema)] p "\x7b\"title\":\"x\"\x7d" = .ok () ∧
    validateJson [(p, titleSchema)] p "\x7b\"title\":\"x\",\"extra\":true\x7d" = .ok () := by
  have hlook : lookupSchema [(p, titleSchema)] p = some titleSchema := by
    simp [lookupSchema]
  refine ⟨?_, rfl, ?_, ?_⟩
  · unfold validateJson
    rw [show parseJson "\x7b\x7d" = Except.ok (Json.obj []) from rfl, hlook]
    rfl
  · unfold validateJson
    rw [show parseJson "\x7b\"title\":\"x\"\x7d" =
        Except.ok (Json.obj [("title", Json.str "x")]) from rfl, hlook]
    rfl
  · unfold validateJson
    rw [show parseJson "\x7b\"title\":\"x\",\"extra\":true\x7d" =
        Except.ok (Json.obj [("title", Json.str "x"), ("extra", Json.bool true)]) from rfl,
      hlook]
    rfl

/-- C6: round trip through the local handler draft: a write whose text
passes validation reports success, and a subsequent read of the same path
returns exactly the written text. -/
theorem c6_write_read_round_trip (schemas : List (String × ZodType)) (st : FState)
    (p t : String) (hp : 1 ≤ p.length)
    (hin : isWithinRoot (getFullPath p) = true)
    (hv : validateJson schemas (getFullPath p) t = .ok ()) :
    (localHandlerPost schemas st p t).1 = .success t ∧
    (localHandlerGet (localHandlerPost schemas st p t).2.1 p).1 = .success t := by
  have hlt : ¬ (p.length < 1) := by omega
  obtain ⟨v, hpv⟩ := validateJson_ok_parse schemas (getFullPath p) t hv
  have hpost : localHandlerPost schemas st p t =
      (.success t,
        ⟨(getFullPath p, t) :: (ensureDirState st).files,
          pathDirname (getFullPath p) :: (ensureDirState st).dirs⟩,
        ensureDirEffects st ++
          [.mkdir (pathDirname (getFullPath p)), .fsWrite (getFullPath p)]) := by
    unfold localHandlerPost
    rw [if_neg hlt, hv]
  have hread : readJsonFile t = .ok t := by
    unfold readJsonFile
    rw [hpv]
  refine ⟨by rw [hpost], ?_⟩
  rw [hpost]
  unfold localHandlerGet
  rw [if_neg hlt, findFile_head]
  simp only [hread]

/-- C6 witness at concrete inputs. -/
theorem c6_write_read_round_trip_witness :
    (localHandlerPost [] rootOnlyFS "a.json" "\x7b\x7d").1 = .success "\x7b\x7d" ∧
    (localHandlerGet (localHandlerPost [] rootOnlyFS "a.json" "\x7b\x7d").2.1 "a.json").1 =
      .success "\x7b\x7d" :=
  c6_write_read_round_trip [] rootOnlyFS "a.json" "\x7b\x7d" (by decide) rfl rfl

/-- C8 amended: a commit request whose message is empty fails the request
schema before any git operation: the repository state is unchanged, no
staging and no commit happen, and the failure surfaces as the generic
GIT_ERROR body produced by the catch-all from the thrown ZodError, not as a
dedicated EmptyMessage kind. -/
theorem c8_empty_message_rejected_unchanged (env : GitConfigEnv) (st : RepoState)
    (message : String) (h : message.length = 0) :
    commitAction env st message =
      (.gitFailure 500 ⟨"String must contain at least 1 character(s)", "GIT_ERROR"⟩, st) := by
  unfold commitAction
  rw [if_neg (by omega)]
  rfl

/-- C8 witness at concrete inputs. -/
theorem c8_empty_message_rejected_unchanged_witness :
    commitAction noIdCfg busyRepo "" =
      (.gitFailure 500 ⟨"String must contain at least 1 character(s)", "GIT_ERROR"⟩,
        busyRepo) :=
  c8_empty_message_rejected_unchanged noIdCfg busyRepo "" rfl

/-- C9 amended: the git error normalization maps missing author name or
email to CONFIG_ERROR, an HttpError with status 401 to AUTH_ERROR and a
checkout conflict to CONFLICT_ERROR; any other Error keeps its message and
passes its own code through when it carries a truthy one, falling back to
GIT_ERROR only when the code is absent or empty; a non-Error value becomes
UNKNOWN_ERROR with a fixed message. -/
theorem c9_error_taxonomy (e : JsError) :
    (e.isError = true → e.code = some "MissingNameError" →
      (handleGitError e).code = "CONFIG_ERROR") ∧
    (e.isError = true → e.code = some "MissingEmailError" →
      (handleGitError e).code = "CONFIG_ERROR") ∧
    (e.isError = true → e.code = some "HttpError" → e.statusCode = some 401 →
      (handleGitError e).code = "AUTH_ERROR") ∧
    (e.isError = true → e.code = some "CheckoutConflictError" →
      (handleGitError e).code = "CONFLICT_ERROR") ∧
    (e.isError = true →
      e.code ≠ some "MissingNameError" → e.code ≠ some "MissingEmailError" →
      ¬ (e.code = some "HttpError" ∧ e.statusCode = some 401) →
      e.code ≠ some "CheckoutConflictError" →
      (handleGitError e).message = e.message ∧
      ((e.code = none ∨ e.code = some "") → (handleGitError e).code = "GIT_ERROR") ∧
      (∀ s, e.code = some s → ¬ s = "" → (handleGitError e).code = s)) ∧
    (e.isError = false → handleGitError e = ⟨"Unknown error occurred", "UNKNOWN_ERROR"⟩) := by
  refine ⟨?_, ?_, ?_, ?_, ?_, ?_⟩
  · intro hi hc
    unfold handleGitError
    rw [if_pos hi, if_pos hc]
  · intro hi hc
    unfold handleGitError
    rw [if_pos hi, if_neg (show ¬ (e.code = some "MissingNameError") by rw [hc]; decide),
      if_pos hc]
  · intro hi hc hs
    unfold handleGitError
    rw [if_pos hi, if_neg (show ¬ (e.code = some "MissingNameError") by rw [hc]; decide),
      if_neg (show ¬ (e.code = some "MissingEmailError") by rw [hc]; decide),
      if_pos ⟨hc, hs⟩]
  · intro hi hc
    unfold handleGitError
    rw [if_pos hi, if_neg (show ¬ (e.code = some "MissingNameError") by rw [hc]; decide),
      if_neg (show ¬ (e.code = some "MissingEmailError") by rw [hc]; decide),
      if_neg (show ¬ (e.code = some "HttpError" ∧ e.statusCode = some 401) by
        intro hcon
        rw [hc] at hcon
        exact absurd hcon.1 (by decide)),
      if_pos hc]
  · intro hi h1 h2 h3 h4
    unfold handleGitError
    rw [if_pos hi, if_neg h1, if_neg h2, if_neg h3, if_neg h4]
    refine ⟨rfl, ?_, ?_⟩
    · intro hco
      rcases hco with hn | he
      · rw [hn]
      · rw [he]
        rfl
    · intro s hs hne
      rw [hs]
      simp [hne]
  · intro hi
    unfold handleGitError
    rw [hi]
    rfl

/-- C9 witness at concrete inputs. -/
theorem c9_error_taxonomy_witness :
    (handleGitError ⟨true, "m", some "MissingNameError", none⟩).code = "CONFIG_ERROR" :=
  (c9_error_taxonomy ⟨true, "m", some "MissingNameError", none⟩).1 rfl rfl

/-- C10: a read of an existing file whose stored content is not valid JSON
does not return the stored text: the local handler re-parses it and fails
with the Invalid JSON file validation error carrying the parser message, a
failure mode beyond NotFound. -/
theorem c10_read_invalid_stored_fails (st : FState) (p content m : String)
    (hp : 1 ≤ p.length)
    (hfound : findFile st.files (getFullPath p) = some content)
    (hbad : parseJson content = .error m) :
    localHandlerGet st p =
      (.validationFailure "Invalid JSON file" [⟨"invalid_json", [], m⟩],
        [.fsExists (getFullPath p), .fsRead (getFullPath p)]) ∧
    (localHandlerGet st p).1 ≠ .success content := by
  have hlt : ¬ (p.length < 1) := by omega
  have hread : readJsonFile content =
      .error ⟨"Invalid JSON file", [⟨"invalid_json", [], m⟩]⟩ := by
    unfold readJsonFile
    rw [hbad]
  have h1 : localHandlerGet st p =
      (.validationFailure "Invalid JSON file" [⟨"invalid_json", [], m⟩],
        [.fsExists (getFullPath p), .fsRead (getFullPath p)]) := by
    unfold localHandlerGet
    rw [if_neg hlt, hfound]
    simp only [hread]
  refine ⟨h1, ?_⟩
  rw [h1]
  simp

/-- C10 witness at concrete inputs. -/
theorem c10_read_invalid_stored_fails_witness :
    (localHandlerGet badStoredFS "bad.json").1 =
      .validationFailure "Invalid JSON file"
        [⟨"invalid_json", [], "Unexpected end of JSON input"⟩] := by
  have h := c10_read_invalid_stored_fails badStoredFS "bad.json" "\x7b"
    "Unexpected end of JSON input" (by decide) rfl rfl
  rw [h.1]

end JsonCms
